import Mathlib

set_option maxRecDepth 8000

/-!
Shallow embedding of the code-analyzer scoring pipeline (src/app.py).

External collaborators (the pylint subprocess, the radon complexity and
Halstead extractors, the file system, the HTTP layer) are modelled as
explicit inputs: each function below takes the collaborator outcome as
data instead of performing I/O.  Python floats are modelled as exact
rationals; the transcendental math.log10 is an uninterpreted parameter
`log10 : ℚ → ℚ`, since every claim concerns the scoring structure around
it rather than logarithm values.
-/

/-- Python `\s` on the ASCII range: space, tab, newline, carriage return,
vertical tab, form feed (the claims only exercise ASCII text). -/
def isPySpace (c : Char) : Bool :=
  c == ' ' || c == '\t' || c == '\n' || c == '\r' || c == '\u000B' || c == '\u000C'

/-- Floor of a rational as an integer, written directly on the reduced
numerator/denominator so that it evaluates by kernel reduction. -/
def ratFloor (x : ℚ) : ℤ := Int.ediv x.num (x.den : ℤ)

/-- Python `round(x, 2)`: round to 2 decimal places, ties broken toward
the even hundredth, modelled exactly on rationals. -/
def round2 (x : ℚ) : ℚ :=
  let y := x * 100
  let f := ratFloor y
  let r := y - f
  if r < 1 / 2 then (f : ℚ) / 100
  else if 1 / 2 < r then (f + 1 : ℚ) / 100
  else (if f % 2 = 0 then (f : ℚ) else (f + 1 : ℚ)) / 100

/-- Value of a list of ASCII decimal digit characters. -/
def digitsToNat (l : List Char) : Nat :=
  l.foldl (fun acc c => acc * 10 + (c.toNat - '0'.toNat)) 0

/-- Numeric value of a matched rating group: optional minus sign, integer
digits, optional fractional part — the shape captured by the regex group
`(-?\d+(?:\.\d+)?)` in src/app.py lines 38 and 46.  `float()` on such a
group always succeeds, so this is total. -/
def parseDecimal (l : List Char) : ℚ :=
  let signed := match l with
    | '-' :: r => (true, r)
    | _ => (false, l)
  let ip := signed.2.takeWhile Char.isDigit
  let rest := signed.2.dropWhile Char.isDigit
  let fp := match rest with
    | '.' :: ds => ds.takeWhile Char.isDigit
    | _ => []
  let v : ℚ := (digitsToNat ip : ℚ) + (digitsToNat fp : ℚ) / (10 ^ fp.length : ℚ)
  if signed.1 then -v else v

/-- Match `(-?\d+(?:\.\d+)?)\s*/\s*10` at the start of `l`, returning the
characters of the captured group.  The greedy quantifiers of the Python
regex are deterministic here (shrinking `\d+` always leaves a digit that
can match none of `\.`, `\s`, `/`), so maximal munch is exact. -/
def matchNumSlash10 (l : List Char) : Option (List Char) :=
  let signed := match l with
    | '-' :: r => (['-'], r)
    | _ => (([] : List Char), l)
  let ip := signed.2.takeWhile Char.isDigit
  let rest1 := signed.2.dropWhile Char.isDigit
  if ip.isEmpty then none
  else
    let frac := match rest1 with
      | '.' :: ds =>
        let fd := ds.takeWhile Char.isDigit
        if fd.isEmpty then (([] : List Char), rest1)
        else ('.' :: fd, ds.dropWhile Char.isDigit)
      | _ => (([] : List Char), rest1)
    let rest2 := frac.2.dropWhile isPySpace
    match rest2 with
    | '/' :: rest3 =>
      match rest3.dropWhile isPySpace with
      | '1' :: '0' :: _ => some (signed.1 ++ ip ++ frac.1)
      | _ => none
    | _ => none

/-- Match `rated at\s+(-?\d+(?:\.\d+)?)\s*/\s*10` (re.IGNORECASE) at the
start of `l`, returning the captured group. -/
def matchRatedAt (l : List Char) : Option (List Char) :=
  if (l.take 8).map Char.toLower = "rated at".data then
    let rest := l.drop 8
    let sp := rest.takeWhile isPySpace
    if sp.isEmpty then none
    else matchNumSlash10 (rest.dropWhile isPySpace)
  else none

/-- Leftmost-match search: try the matcher at index 0, 1, 2, … of the
text, as `re.search` does. -/
def firstMatch (m : List Char → Option (List Char)) : List Char → Option (List Char)
  | [] => m []
  | c :: cs =>
    match m (c :: cs) with
    | some g => some g
    | none => firstMatch m cs

/-- Rating extraction of src/app.py lines 38-53: prefer a
`rated at X/10` match (case-insensitive), fall back to any `X/10`,
otherwise `0.0`; the extracted value is rounded to 2 decimals.  The
`float()` conversion never fails on a regex-matched group, so the
`except: pass` branches are dead. -/
def parse_rating (output : String) : ℚ :=
  match firstMatch matchRatedAt output.data with
  | some g => round2 (parseDecimal g)
  | none =>
    match firstMatch matchNumSlash10 output.data with
    | some g => round2 (parseDecimal g)
    | none => 0

/-- Outcome of the `subprocess.run` call in `run_pylint`: normal
completion with captured stdout/stderr, executable missing
(`FileNotFoundError`), timeout (`subprocess.TimeoutExpired`), or any
other execution error. -/
inductive SubprocOutcome where
  | ok (stdout stderr : String)
  | fileNotFound
  | timedOut
  | otherError (msg : String)
deriving DecidableEq

/-- src/app.py lines 16-53, `run_pylint`: returns a score and the raw
text; every subprocess failure is converted into `(0.0, message)`.  The
command construction and file path only select what the subprocess does,
so they are absorbed into the `SubprocOutcome` input. -/
def run_pylint (r : SubprocOutcome) : ℚ × String :=
  match r with
  | SubprocOutcome.fileNotFound =>
    (0, "Pylint not found. Install pylint (`pip install pylint`).")
  | SubprocOutcome.timedOut => (0, "Pylint timed out.")
  | SubprocOutcome.otherError e => (0, "Pylint error: " ++ e)
  | SubprocOutcome.ok out err =>
    let output := out ++ "\n" ++ err
    (parse_rating output, output)

/-- Score of one cyclomatic-complexity rank, src/app.py line 57+60: the
dict `{"A":10,"B":8,"C":6,"D":4,"E":2,"F":0}` read with `.get(rank, 0)`,
so any unknown rank scores 0.  The rank letter itself is produced by the
external extractor (`cc_rank`), a collaborator, so ranks are the input. -/
def cc_rank_score (r : String) : ℚ :=
  if r = "A" then 10
  else if r = "B" then 8
  else if r = "C" then 6
  else if r = "D" then 4
  else if r = "E" then 2
  else if r = "F" then 0
  else 0

/-- src/app.py lines 56-61, `cc_to_score`: empty input scores 10.0,
otherwise the mean of the per-unit rank scores rounded to 2 decimals. -/
def cc_to_score (ranks : List String) : ℚ :=
  if ranks.isEmpty then 10
  else round2 (((ranks.map cc_rank_score).sum) / (ranks.length : ℚ))

/-- One record of the external Halstead extractor (`h_visit`), exposing
`effort` and `bugs`; a missing attribute is already 0.0 via `getattr`. -/
structure HalsteadRecord where
  effort : ℚ
  bugs : ℚ
deriving DecidableEq

/-- Python `max` over a nonempty list (left fold of the binary max over
the tail, starting from the head); 0 for the empty list, matching the
`max(efforts) if efforts else 0.0` guard in src/app.py line 72. -/
def maxList (l : List ℚ) : ℚ :=
  match l with
  | [] => 0
  | x :: xs => xs.foldl max x

/-- src/app.py lines 64-79, `halstead_scores`, taking the output of the
external extractor as input: returns
`(effort_score, bug_score, raw_effort, raw_bugs)`. -/
def halstead_scores (log10 : ℚ → ℚ) (halstead : List HalsteadRecord) :
    ℚ × ℚ × ℚ × ℚ :=
  if halstead.isEmpty then (10, 10, 0, 0)
  else
    let efforts := halstead.map (fun h => h.effort)
    let bugs := halstead.map (fun h => h.bugs)
    let raw_effort := maxList efforts
    let raw_bugs := bugs.sum
    let effort_score :=
      if raw_effort ≤ 0 then 10
      else max 0 (min 10 (10 - log10 (raw_effort + 1) * 2))
    let bug_score := max 0 (min 10 (10 - raw_bugs * 10))
    (round2 effort_score, round2 bug_score, raw_effort, raw_bugs)

/-- Modelled from the spec wording: `clamp(x, lo, hi)`. -/
def clamp (x lo hi : ℚ) : ℚ := max lo (min hi x)

/-- One result record, src/app.py lines 107-117 (the dict literal);
`test_pass_rate` and `maintainability` are hardcoded placeholders. -/
structure AnalysisResult where
  pylint_score : ℚ
  pylint_output : String
  cc_score : ℚ
  effort_score : ℚ
  bug_score : ℚ
  raw_effort : ℚ
  raw_bugs : ℚ
  test_pass_rate : String
  maintainability : String
deriving DecidableEq

/-- The result record assembled by `analyze_code_string`
(src/app.py lines 90-117): the lint stage result, then the complexity
stage guarded by `try/except` (score 0.0 and a log line on failure),
then the Halstead stage likewise.  Collaborator outcomes are inputs:
`ccOut` is the `cc_visit`+`cc_rank` outcome (a list of ranks, or the
exception message), `halOut` the `h_visit` outcome. -/
def analyzeResult (log10 : ℚ → ℚ) (lintOut : SubprocOutcome)
    (ccOut : Except String (List String))
    (halOut : Except String (List HalsteadRecord)) : AnalysisResult :=
  let lint := run_pylint lintOut
  let ccStage : ℚ × String :=
    match ccOut with
    | Except.ok ranks => (cc_to_score ranks, lint.2)
    | Except.error e => (0, lint.2 ++ "\nRadon CC error: " ++ e)
  let halStage : (ℚ × ℚ × ℚ × ℚ) × String :=
    match halOut with
    | Except.ok recs => (halstead_scores log10 recs, ccStage.2)
    | Except.error e => ((0, 0, 0, 0), ccStage.2 ++ "\nHalstead error: " ++ e)
  AnalysisResult.mk lint.1 halStage.2 ccStage.1
    halStage.1.1 halStage.1.2.1 halStage.1.2.2.1 halStage.1.2.2.2
    ("10/10") ("10/10")

/-- src/app.py lines 82-122, `analyze_code_string` with its file-system
effect made explicit: the snippet is written to the fresh `fullpath`
(the uuid-named temp file), the stages run inside `try`, and the
`finally` block removes the file, swallowing a failing `os.remove`
(`removeOk = false` models the swallowed deletion failure).  Returns the
result record together with the final set of temp files. -/
def analyze_code_string (log10 : ℚ → ℚ) (fs : List String) (fullpath : String)
    (removeOk : Bool) (lintOut : SubprocOutcome)
    (ccOut : Except String (List String))
    (halOut : Except String (List HalsteadRecord)) :
    AnalysisResult × List String :=
  let fs1 := fullpath :: fs
  (analyzeResult log10 lintOut ccOut halOut,
    if removeOk then fs1.erase fullpath else fs1)

/-- Python `str.strip()` on the ASCII whitespace range. -/
def pyStrip (s : String) : String :=
  String.mk (((s.data.dropWhile isPySpace).reverse.dropWhile isPySpace).reverse)

/-- One form submission: the snippet text plus the collaborator outcomes
its analysis produces. -/
structure Submission where
  codeText : String
  lintOut : SubprocOutcome
  ccOut : Except String (List String)
  halOut : Except String (List HalsteadRecord)

/-- The POST path of `index` (src/app.py lines 132-136) acting on the
history `app.all_results`: a non-blank snippet is analyzed and the one
resulting record appended; a blank snippet leaves the history alone. -/
def index_post (log10 : ℚ → ℚ) (st : List AnalysisResult) (s : Submission) :
    List AnalysisResult :=
  if pyStrip s.codeText = "" then st
  else st ++ [analyzeResult log10 s.lintOut s.ccOut s.halOut]

/-- N sequential single-writer submissions against the same history. -/
def runSubmissions (log10 : ℚ → ℚ) (st : List AnalysisResult)
    (subs : List Submission) : List AnalysisResult :=
  subs.foldl (index_post log10) st

/-- Substring test used to talk about diagnostic lines of the shape
`<Stage> error: <message>`. -/
def hasSub (pat : List Char) : List Char → Bool
  | [] => pat.isEmpty
  | c :: cs => pat.isPrefixOf (c :: cs) || hasSub pat cs

theorem foldlMax_start_le (bs : List ℚ) : ∀ a : ℚ, a ≤ bs.foldl max a := by
  induction bs with
  | nil => intro a; exact le_rfl
  | cons b bs ih => intro a; exact le_trans (le_max_left a b) (ih (max a b))

theorem foldlMax_mem_le (bs : List ℚ) : ∀ (a x : ℚ), x ∈ bs → x ≤ bs.foldl max a := by
  induction bs with
  | nil => intro a x hx; cases hx
  | cons b bs ih =>
    intro a x hx
    cases List.mem_cons.mp hx with
    | inl h =>
      subst h
      exact le_trans (le_max_right a x) (foldlMax_start_le bs (max a x))
    | inr h => exact ih (max a b) x h

theorem foldlMax_mem_or (bs : List ℚ) :
    ∀ a : ℚ, bs.foldl max a = a ∨ bs.foldl max a ∈ bs := by
  induction bs with
  | nil => intro a; exact Or.inl rfl
  | cons b bs ih =>
    intro a
    rw [List.foldl_cons]
    cases ih (max a b) with
    | inl h =>
      rw [h]
      cases max_choice a b with
      | inl h2 => exact Or.inl h2
      | inr h2 => exact Or.inr (by rw [h2]; exact List.mem_cons_self b bs)
    | inr h => exact Or.inr (List.mem_cons_of_mem b h)

theorem le_maxList (l : List ℚ) (x : ℚ) (hx : x ∈ l) : x ≤ maxList l := by
  cases l with
  | nil => cases hx
  | cons a as =>
    unfold maxList
    cases List.mem_cons.mp hx with
    | inl h => subst h; exact foldlMax_start_le as x
    | inr h => exact foldlMax_mem_le as a x h

theorem maxList_mem (l : List ℚ) (h : l ≠ []) : maxList l ∈ l := by
  cases l with
  | nil => exact absurd rfl h
  | cons a as =>
    show List.foldl max a as ∈ a :: as
    cases foldlMax_mem_or as a with
    | inl he => rw [he]; exact List.mem_cons_self a as
    | inr he => exact List.mem_cons_of_mem a he

/-- C5: the Tool-Output Parser prefers a case-insensitive rating of the
shape "rated at X/10", falls back to any "X/10" pattern, returns 0.0
when neither matches, and rounds the extracted value to 2 decimal
places; in particular "rated at 7.5/10" scores 7.5, a bare "3/10"
scores 3.0, and text with no matching pattern scores 0.0. -/
theorem parse_rating_spec :
    parse_rating ("Your code has been rated at 7.5/10") = 7.5 ∧
    parse_rating ("quality 3/10") = 3 ∧
    parse_rating ("no matching pattern here") = 0 ∧
    parse_rating ("first 2/10 but overall rated at 7.5/10") = 7.5 ∧
    parse_rating ("RATED AT 8/10") = 8 ∧
    parse_rating ("rated at 7.128/10") = 7.13 := by
  with_unfolding_all decide

/-- C7: the lint invocation never raises: a missing executable, a
timeout, and any other execution error all yield the pair
(0.0, diagnostic message) instead of propagating. -/
theorem run_pylint_failure_containment :
    run_pylint SubprocOutcome.fileNotFound
      = (0, "Pylint not found. Install pylint (`pip install pylint`).") ∧
    run_pylint SubprocOutcome.timedOut = (0, "Pylint timed out.") ∧
    ∀ e : String,
      run_pylint (SubprocOutcome.otherError e) = (0, "Pylint error: " ++ e) :=
  ⟨rfl, rfl, fun _ => rfl⟩

/-- C10: the Tool-Output Parser accepts a leading minus sign and any
magnitude and returns the rounded value unclamped, so some tool outputs
score outside [0,10]: "rated at -5.00/10" yields -5.0, and a bare
"123.45/10" yields 123.45. -/
theorem parse_rating_unclamped :
    parse_rating ("Your code has been rated at -5.00/10") = -5 ∧
    parse_rating ("Your code has been rated at -5.00/10") < 0 ∧
    parse_rating ("module scored 123.45/10 overall") = 123.45 ∧
    10 < parse_rating ("module scored 123.45/10 overall") := by
  with_unfolding_all decide

/-- C1: the claim that every numeric sub-score lies in [0,10] is
violated by the code at a tool output rated negatively: the result
record then carries a negative lint score, while the complexity,
effort and bug scores stay in range. -/
theorem pylint_score_escapes_range :
    (analyzeResult (fun _ => 0)
        (SubprocOutcome.ok ("Your code has been rated at -5.00/10") (""))
        (Except.ok ["A"]) (Except.ok [])).pylint_score = -5 ∧
    (analyzeResult (fun _ => 0)
        (SubprocOutcome.ok ("Your code has been rated at -5.00/10") (""))
        (Except.ok ["A"]) (Except.ok [])).pylint_score < 0 := by
  with_unfolding_all decide

/-- C2 counterexample: when the external lint tool is unavailable, the
lint score is forced to 0.0, but the shared log field holds only the
fixed message "Pylint not found. Install pylint (`pip install
pylint`)." — no diagnostic of the form "<Stage> error: <message>" (no
" error: " substring) appears, contradicting the claimed form; the
other stages are still computed (complexity score 10 from rank A). -/
theorem lint_unavailable_log_lacks_error_form :
    analyzeResult (fun _ => 0) SubprocOutcome.fileNotFound
        (Except.ok ["A"]) (Except.ok [])
      = AnalysisResult.mk 0
          ("Pylint not found. Install pylint (`pip install pylint`).")
          10 10 10 0 0 ("10/10") ("10/10") ∧
    hasSub (" error: ").data
        ("Pylint not found. Install pylint (`pip install pylint`).").data
      = false := by
  with_unfolding_all decide

/-- C2 amended: a failing complexity or Halstead stage is caught at its
boundary, scores 0.0, and appends a one-line "<Stage> error: <message>"
diagnostic ("Radon CC error: ..." or "Halstead error: ...") to the log;
a failing lint stage scores 0.0 with the log field set to a fixed
message ("Pylint not found. Install pylint (`pip install pylint`)." or
"Pylint timed out.") or to "Pylint error: <message>"; in every case the
remaining stages are computed normally from the same snippet. -/
theorem stage_failure_isolation :
    (∀ (log10 : ℚ → ℚ) (rs : List String) (recs : List HalsteadRecord),
      analyzeResult log10 SubprocOutcome.fileNotFound
          (Except.ok rs) (Except.ok recs)
        = AnalysisResult.mk 0
            ("Pylint not found. Install pylint (`pip install pylint`).")
            (cc_to_score rs)
            (halstead_scores log10 recs).1
            (halstead_scores log10 recs).2.1
            (halstead_scores log10 recs).2.2.1
            (halstead_scores log10 recs).2.2.2
            ("10/10") ("10/10")) ∧
    (∀ (log10 : ℚ → ℚ) (lintOut : SubprocOutcome) (e : String)
        (recs : List HalsteadRecord),
      (analyzeResult log10 lintOut (Except.error e) (Except.ok recs)).cc_score
          = 0 ∧
      (analyzeResult log10 lintOut (Except.error e) (Except.ok recs)).pylint_output
          = (run_pylint lintOut).2 ++ "\nRadon CC error: " ++ e ∧
      (analyzeResult log10 lintOut (Except.error e) (Except.ok recs)).effort_score
          = (halstead_scores log10 recs).1 ∧
      (analyzeResult log10 lintOut (Except.error e) (Except.ok recs)).bug_score
          = (halstead_scores log10 recs).2.1 ∧
      (analyzeResult log10 lintOut (Except.error e) (Except.ok recs)).pylint_score
          = (run_pylint lintOut).1) ∧
    (∀ (log10 : ℚ → ℚ) (lintOut : SubprocOutcome) (rs : List String)
        (e : String),
      (analyzeResult log10 lintOut (Except.ok rs) (Except.error e)).effort_score
          = 0 ∧
      (analyzeResult log10 lintOut (Except.ok rs) (Except.error e)).bug_score
          = 0 ∧
      (analyzeResult log10 lintOut (Except.ok rs) (Except.error e)).raw_effort
          = 0 ∧
      (analyzeResult log10 lintOut (Except.ok rs) (Except.error e)).raw_bugs
          = 0 ∧
      (analyzeResult log10 lintOut (Except.ok rs) (Except.error e)).pylint_output
          = (run_pylint lintOut).2 ++ "\nHalstead error: " ++ e ∧
      (analyzeResult log10 lintOut (Except.ok rs) (Except.error e)).cc_score
          = cc_to_score rs) ∧
    (∀ (log10 : ℚ → ℚ) (rs : List String) (recs : List HalsteadRecord),
      analyzeResult log10 SubprocOutcome.timedOut
          (Except.ok rs) (Except.ok recs)
        = AnalysisResult.mk 0 ("Pylint timed out.")
            (cc_to_score rs)
            (halstead_scores log10 recs).1
            (halstead_scores log10 recs).2.1
            (halstead_scores log10 recs).2.2.1
            (halstead_scores log10 recs).2.2.2
            ("10/10") ("10/10")) ∧
    (∀ (log10 : ℚ → ℚ) (e : String) (rs : List String)
        (recs : List HalsteadRecord),
      analyzeResult log10 (SubprocOutcome.otherError e)
          (Except.ok rs) (Except.ok recs)
        = AnalysisResult.mk 0 ("Pylint error: " ++ e)
            (cc_to_score rs)
            (halstead_scores log10 recs).1
            (halstead_scores log10 recs).2.1
            (halstead_scores log10 recs).2.2.1
            (halstead_scores log10 recs).2.2.2
            ("10/10") ("10/10")) := by
  exact ⟨fun log10 rs recs => rfl,
    fun log10 lintOut e recs => ⟨rfl, rfl, rfl, rfl, rfl⟩,
    fun log10 lintOut rs e => ⟨rfl, rfl, rfl, rfl, rfl, rfl⟩,
    fun log10 rs recs => rfl,
    fun log10 e rs recs => rfl⟩

/-- C3: one submission through the Orchestrator (the POST handling of a
non-blank snippet) never raises, produces exactly one AnalysisResult,
and appends exactly that record at the end of Result History as its
final step — the prior history is untouched and grows by one. -/
theorem orchestrator_appends_one_record (log10 : ℚ → ℚ)
    (st : List AnalysisResult) (s : Submission)
    (h : pyStrip s.codeText ≠ "") :
    index_post log10 st s
      = st ++ [analyzeResult log10 s.lintOut s.ccOut s.halOut] ∧
    (index_post log10 st s).take st.length = st ∧
    (index_post log10 st s).length = st.length + 1 := by
  have h1 : index_post log10 st s
      = st ++ [analyzeResult log10 s.lintOut s.ccOut s.halOut] := by
    unfold index_post
    rw [if_neg h]
  refine ⟨h1, ?_, ?_⟩
  · rw [h1]
    exact List.take_left st _
  · rw [h1]
    simp

theorem orchestrator_appends_one_record_witness :
    index_post (fun _ => 0) []
        (Submission.mk ("x = 1") SubprocOutcome.fileNotFound
          (Except.ok []) (Except.ok []))
      = [analyzeResult (fun _ => 0) SubprocOutcome.fileNotFound
          (Except.ok []) (Except.ok [])] :=
  (orchestrator_appends_one_record (fun _ => 0) []
      (Submission.mk ("x = 1") SubprocOutcome.fileNotFound
        (Except.ok []) (Except.ok []))
      (by with_unfolding_all decide)).1

/-- C4: for a nonempty record collection the Halstead Scorer returns
rawEffort = max of the efforts, rawBugs = sum of the bugs, effort score
round2 of (10 when rawEffort ≤ 0, else clamp(10 - 2 log10(rawEffort+1),
0, 10)), bug score round2 of clamp(10 - 10 rawBugs, 0, 10) — hence 0
whenever rawBugs ≥ 1 — and the empty collection yields
(10.0, 10.0, 0.0, 0.0). -/
theorem halstead_scores_spec (log10 : ℚ → ℚ) (recs : List HalsteadRecord)
    (hne : recs ≠ []) :
    halstead_scores log10 [] = (10, 10, 0, 0) ∧
    (∀ r ∈ recs, r.effort ≤ (halstead_scores log10 recs).2.2.1) ∧
    (halstead_scores log10 recs).2.2.1 ∈ recs.map (fun h => h.effort) ∧
    (halstead_scores log10 recs).2.2.2 = (recs.map (fun h => h.bugs)).sum ∧
    (halstead_scores log10 recs).1
      = round2 (if (halstead_scores log10 recs).2.2.1 ≤ 0 then (10 : ℚ)
          else clamp (10 - 2 * log10 ((halstead_scores log10 recs).2.2.1 + 1))
                 0 10) ∧
    (halstead_scores log10 recs).2.1
      = round2 (clamp (10 - 10 * (halstead_scores log10 recs).2.2.2) 0 10) ∧
    ((1 : ℚ) ≤ (recs.map (fun h => h.bugs)).sum →
      (halstead_scores log10 recs).2.1 = 0) := by
  cases recs with
  | nil => exact absurd rfl hne
  | cons r rs =>
    have h3 : (halstead_scores log10 (r :: rs)).2.2.1
        = maxList ((r :: rs).map (fun h => h.effort)) := rfl
    have h4 : (halstead_scores log10 (r :: rs)).2.2.2
        = ((r :: rs).map (fun h => h.bugs)).sum := rfl
    have h1 : (halstead_scores log10 (r :: rs)).1
        = round2 (if maxList ((r :: rs).map (fun h => h.effort)) ≤ 0 then (10 : ℚ)
            else max 0 (min 10
              (10 - log10 (maxList ((r :: rs).map (fun h => h.effort)) + 1) * 2))) :=
      rfl
    have h2 : (halstead_scores log10 (r :: rs)).2.1
        = round2 (max 0 (min 10
            (10 - ((r :: rs).map (fun h => h.bugs)).sum * 10))) := rfl
    refine ⟨rfl, ?_, ?_, h4, ?_, ?_, ?_⟩
    · intro x hx
      rw [h3]
      exact le_maxList _ x.effort (List.mem_map_of_mem _ hx)
    · rw [h3]
      exact maxList_mem _ (by simp)
    · rw [h1, h3]
      have harr : (10 : ℚ)
            - log10 (maxList ((r :: rs).map (fun h => h.effort)) + 1) * 2
          = 10 - 2 * log10 (maxList ((r :: rs).map (fun h => h.effort)) + 1) := by
        ring
      rw [harr]
      rfl
    · have hb : (10 : ℚ) - ((r :: rs).map (fun h => h.bugs)).sum * 10
          = 10 - 10 * ((r :: rs).map (fun h => h.bugs)).sum := by ring
      rw [h2, h4, hb]
      rfl
    · intro hb1
      rw [h2]
      have hle : (10 : ℚ) - ((r :: rs).map (fun h => h.bugs)).sum * 10 ≤ 0 := by
        linarith
      have h0 : max 0 (min 10
          ((10 : ℚ) - ((r :: rs).map (fun h => h.bugs)).sum * 10)) = 0 := by
        rw [min_eq_right (le_trans hle (by norm_num))]
        exact max_eq_left hle
      rw [h0]
      with_unfolding_all decide

theorem halstead_scores_spec_witness :
    halstead_scores (fun _ => 0) [] = (10, 10, 0, 0) ∧
    (halstead_scores (fun _ => 0) [HalsteadRecord.mk 3 2]).2.1 = 0 :=
  ⟨(halstead_scores_spec (fun _ => 0) [HalsteadRecord.mk 3 2]
      (by with_unfolding_all decide)).1,
    (halstead_scores_spec (fun _ => 0) [HalsteadRecord.mk 3 2]
      (by with_unfolding_all decide)).2.2.2.2.2.2
      (by norm_num [List.map_cons, List.map_nil, List.sum_cons, List.sum_nil])⟩

/-- C6: the Complexity Scorer maps A→10, B→8, C→6, D→4, E→2, F→0, any
other rank to 0, and returns the mean over all units rounded to 2
decimals; an empty collection scores 10.0 and [A,A,B,F] scores 7.0. -/
theorem cc_to_score_spec :
    (cc_rank_score ("A") = 10 ∧ cc_rank_score ("B") = 8 ∧ cc_rank_score ("C") = 6 ∧
      cc_rank_score ("D") = 4 ∧ cc_rank_score ("E") = 2 ∧ cc_rank_score ("F") = 0) ∧
    (∀ r : String, r ∉ (["A", "B", "C", "D", "E", "F"] : List String) →
      cc_rank_score r = 0) ∧
    cc_to_score [] = 10 ∧
    (∀ ranks : List String, ranks ≠ [] →
      cc_to_score ranks
        = round2 ((ranks.map cc_rank_score).sum / (ranks.length : ℚ))) ∧
    cc_to_score ["A", "A", "B", "F"] = 7 := by
  refine ⟨⟨rfl, rfl, rfl, rfl, rfl, rfl⟩, ?_, rfl, ?_, ?_⟩
  · intro r hr
    simp only [List.mem_cons, List.not_mem_nil, or_false, not_or] at hr
    obtain ⟨g1, g2, g3, g4, g5, g6⟩ := hr
    simp [cc_rank_score, g1, g2, g3, g4, g5, g6]
  · intro ranks h
    cases ranks with
    | nil => exact absurd rfl h
    | cons a as => rfl
  · with_unfolding_all decide

theorem cc_to_score_spec_witness :
    cc_rank_score ("G") = 0 ∧
    cc_to_score ["B", "F"]
      = round2 (((["B", "F"] : List String).map cc_rank_score).sum
          / (((["B", "F"] : List String)).length : ℚ)) :=
  ⟨cc_to_score_spec.2.1 ("G") (by with_unfolding_all decide),
    cc_to_score_spec.2.2.2.1 ["B", "F"] (by with_unfolding_all decide)⟩

theorem runSubmissions_eq (log10 : ℚ → ℚ) :
    ∀ (subs : List Submission) (st : List AnalysisResult),
      (∀ t ∈ subs, pyStrip t.codeText ≠ "") →
      runSubmissions log10 st subs
        = st ++ subs.map (fun t => analyzeResult log10 t.lintOut t.ccOut t.halOut) := by
  intro subs
  induction subs with
  | nil =>
    intro st h
    simp [runSubmissions]
  | cons a as ih =>
    intro st h
    have ha : pyStrip a.codeText ≠ "" := h a (List.mem_cons_self a as)
    have has : ∀ t ∈ as, pyStrip t.codeText ≠ "" :=
      fun t ht => h t (List.mem_cons_of_mem a ht)
    have hstep : index_post log10 st a
        = st ++ [analyzeResult log10 a.lintOut a.ccOut a.halOut] := by
      unfold index_post
      rw [if_neg ha]
    calc runSubmissions log10 st (a :: as)
        = runSubmissions log10 (index_post log10 st a) as := rfl
      _ = (st ++ [analyzeResult log10 a.lintOut a.ccOut a.halOut])
            ++ as.map (fun t => analyzeResult log10 t.lintOut t.ccOut t.halOut) := by
          rw [hstep]
          exact ih _ has
      _ = st ++ (a :: as).map
            (fun t => analyzeResult log10 t.lintOut t.ccOut t.halOut) := by
          simp [List.map_cons, List.append_assoc]

/-- C8: Result History is append-only: a submission appends its one
record at the end leaving the prefix untouched, and after N sequential
single-writer submissions from the empty history, entry i is exactly
the record of the i-th submission in submission order. -/
theorem history_append_only (log10 : ℚ → ℚ) (st : List AnalysisResult)
    (s : Submission) (subs : List Submission)
    (hs : pyStrip s.codeText ≠ "")
    (hall : ∀ t ∈ subs, pyStrip t.codeText ≠ "") :
    index_post log10 st s
      = st ++ [analyzeResult log10 s.lintOut s.ccOut s.halOut] ∧
    (index_post log10 st s).take st.length = st ∧
    runSubmissions log10 [] subs
      = subs.map (fun t => analyzeResult log10 t.lintOut t.ccOut t.halOut) ∧
    ∀ i : ℕ,
      (runSubmissions log10 [] subs)[i]?
        = (subs[i]?).map (fun t => analyzeResult log10 t.lintOut t.ccOut t.halOut) := by
  have h1 : index_post log10 st s
      = st ++ [analyzeResult log10 s.lintOut s.ccOut s.halOut] := by
    unfold index_post
    rw [if_neg hs]
  have h2 := runSubmissions_eq log10 subs [] hall
  rw [List.nil_append] at h2
  refine ⟨h1, ?_, h2, ?_⟩
  · rw [h1]
    exact List.take_left st _
  · intro i
    rw [h2]
    exact List.getElem?_map _ _ _

theorem history_append_only_witness :
    runSubmissions (fun _ => 0) []
        [Submission.mk ("a") SubprocOutcome.fileNotFound (Except.ok []) (Except.ok []),
          Submission.mk ("b") SubprocOutcome.timedOut (Except.ok ["B"]) (Except.ok [])]
      = [analyzeResult (fun _ => 0) SubprocOutcome.fileNotFound
            (Except.ok []) (Except.ok []),
          analyzeResult (fun _ => 0) SubprocOutcome.timedOut
            (Except.ok ["B"]) (Except.ok [])] :=
  (history_append_only (fun _ => 0) []
      (Submission.mk ("a") SubprocOutcome.fileNotFound (Except.ok []) (Except.ok []))
      [Submission.mk ("a") SubprocOutcome.fileNotFound (Except.ok []) (Except.ok []),
        Submission.mk ("b") SubprocOutcome.timedOut (Except.ok ["B"]) (Except.ok [])]
      (by with_unfolding_all decide)
      (by with_unfolding_all decide)).2.2.1

/-- C9: the uniquely named temporary file lives only inside one
Orchestrator invocation: on every combination of stage outcomes the
`finally` block removes it (final file set equals the initial one, and
the fresh path is absent), a failing deletion is swallowed (the record
is still produced, identical to the success case), and only then does
the file linger. -/
theorem temp_file_scoped (log10 : ℚ → ℚ) (fs : List String) (fullpath : String)
    (lintOut : SubprocOutcome) (ccOut : Except String (List String))
    (halOut : Except String (List HalsteadRecord))
    (hfresh : fullpath ∉ fs) :
    (analyze_code_string log10 fs fullpath true lintOut ccOut halOut).2 = fs ∧
    fullpath ∉ (analyze_code_string log10 fs fullpath true lintOut ccOut halOut).2 ∧
    (analyze_code_string log10 fs fullpath false lintOut ccOut halOut).2
      = fullpath :: fs ∧
    (analyze_code_string log10 fs fullpath false lintOut ccOut halOut).1
      = (analyze_code_string log10 fs fullpath true lintOut ccOut halOut).1 := by
  have h1 : (analyze_code_string log10 fs fullpath true lintOut ccOut halOut).2
      = fs := by
    show (fullpath :: fs).erase fullpath = fs
    exact List.erase_cons_head fullpath fs
  refine ⟨h1, ?_, rfl, rfl⟩
  rw [h1]
  exact hfresh

theorem temp_file_scoped_witness :
    (analyze_code_string (fun _ => 0) [] ("upload_1.py") true
        SubprocOutcome.fileNotFound (Except.ok []) (Except.ok [])).2 = [] :=
  (temp_file_scoped (fun _ => 0) [] ("upload_1.py") SubprocOutcome.fileNotFound
      (Except.ok []) (Except.ok []) (by with_unfolding_all decide)).1
